import Mathlib

/-!
# Verification of the storage-node piecestore endpoint

Shallow embedding of the piecestore endpoint (`Endpoint.Upload`,
`Endpoint.Download`, `Endpoint.Retain`, `saveOrder`, live-request limiter)
together with proofs of the testable properties stated in the design spec.

Machine integers (`int64`, `int32`) are modelled as `Int`; byte slices as
`List Nat`.  Collaborators that the endpoint only calls through a contract
(piece store, orders queue, bandwidth ledger, retain service, verifier)
are modelled as explicit state threaded through the handler functions, with
fallible calls represented by outcome fields of an environment record.
-/

namespace Piecestore

/-- RPC status codes used by the endpoint (subset of `rpcstatus`). -/
inductive StatusCode where
  | invalidArgument
  | internal
  | aborted
  | unavailable
  | unauthenticated
  | permissionDenied
  | notFound
  | alreadyExists
  deriving Repr, DecidableEq

/-- An error returned by a handler. `canceled` records whether the
underlying error satisfies `errs2.IsCanceled` (context cancellation),
which the deferred metrics code inspects. -/
structure RpcError where
  code : StatusCode
  msg : String
  canceled : Bool := false
  deriving Repr, DecidableEq

/-- Metrics bucket chosen by the deferred observer in `Upload`/`Download`. -/
inductive Bucket where
  | success
  | failure
  | cancel
  deriving Repr, DecidableEq

/-- The `pb.PieceAction` enumeration. -/
inductive PieceAction where
  | put
  | putRepair
  | get
  | getRepair
  | getAudit
  | delete
  deriving Repr, DecidableEq

/-- The `pb.OrderLimit` message: the coordinator-signed envelope.  Fields not inspected
by the endpoint code under verification are omitted; `pieceExpiration = 0`
models the zero time (`IsZero`). -/
structure OrderLimit where
  satelliteId : Nat
  pieceId : Nat
  serialNumber : Nat
  limit : Int
  action : PieceAction
  pieceExpiration : Int := 0
  deriving Repr, DecidableEq

/-- The `pb.Order` message: the uplink-signed incremental bandwidth claim.
`sigValid` abstracts validity of the uplink signature. -/
structure Order where
  serialNumber : Nat
  amount : Int
  sigValid : Bool
  deriving Repr, DecidableEq

/-- The zero value `pb.Order\x7b\x7d` used to initialise `largestOrder`. -/
def Order.zero : Order := { serialNumber := 0, amount := 0, sigValid := false }

/-- Modelled from the spec: `Endpoint.VerifyOrder` (the verification file is
not part of the sources).  Per the spec it "fails if: serial ≠ limit.serial;
amount < prevAmount; amount > limit.byte-limit; uplink signature invalid",
returning invalid-argument. -/
def VerifyOrder (limit : OrderLimit) (order : Order) (prevAmount : Int) : Option RpcError :=
  if order.serialNumber ≠ limit.serialNumber then
    some { code := .invalidArgument, msg := "order serial number mismatch" }
  else if order.amount < prevAmount then
    some { code := .invalidArgument, msg := "order amount decreased" }
  else if limit.limit < order.amount then
    some { code := .invalidArgument, msg := "order amount exceeds limit" }
  else if ¬ order.sigValid then
    some { code := .invalidArgument, msg := "order signature invalid" }
  else
    none

/-- The `pb.PieceUploadRequest.Chunk` message. -/
structure PieceChunk where
  offset : Int
  data : List Nat
  deriving Repr, DecidableEq

/-- The `pb.PieceUploadRequest.Done` message (a `pb.PieceHash`).  `hashValid` abstracts
the outcome of `Endpoint.VerifyPieceHash` (modelled from the spec: that
function is not part of the sources; it checks the uplink signature and that
the hash bytes equal the writer's streaming hash). -/
structure PieceDone where
  pieceSize : Int
  hashValid : Bool
  deriving Repr, DecidableEq

/-- The `pb.PieceUploadRequest` message: any subset of limit/order/chunk/done. -/
structure PieceUploadRequest where
  limit : Option OrderLimit := none
  order : Option Order := none
  chunk : Option PieceChunk := none
  done : Option PieceDone := none
  deriving Repr, DecidableEq

/-- One `stream.Recv` outcome inside a handler loop.  The end of the event
list models the peer closing the stream (`io.EOF`). -/
inductive RecvEvent (M : Type) where
  | msg (m : M)
  | canceled
  | transportErr
  deriving Repr, DecidableEq

/-- Record enqueued into the orders queue by `saveOrder`
(an `orders.Info`). -/
structure OrderInfo where
  limit : OrderLimit
  order : Order
  deriving Repr, DecidableEq

/-- A bandwidth-ledger entry added by `usage.Add`. -/
structure LedgerEntry where
  satelliteId : Nat
  action : PieceAction
  amount : Int
  deriving Repr, DecidableEq

/-- The state owned by the orders queue and the bandwidth ledger. -/
structure OrdersState where
  queue : List OrderInfo
  ledger : List LedgerEntry
  deriving Repr, DecidableEq

/-- The `Endpoint.saveOrder` helper: skips when no order was received or its amount is
not positive; otherwise enqueues, and adds to the bandwidth ledger only when
the enqueue succeeded.  `enqueueOk`/`addOk` model the outcomes of the two
fallible collaborator calls (failures are only logged). -/
def saveOrder (enqueueOk addOk : Bool) (limit : OrderLimit) (order : Option Order)
    (st : OrdersState) : OrdersState :=
  match order with
  | none => st
  | some o =>
    if o.amount ≤ 0 then st
    else if enqueueOk then
      let st' := { st with queue := st.queue ++ [{ limit := limit, order := o }] }
      if addOk then
        { st' with ledger := st'.ledger ++
            [{ satelliteId := limit.satelliteId, action := limit.action, amount := o.amount }] }
      else st'
    else st

/-- Local state of the Upload receive loop: the piece writer's buffered
bytes (`writerData`, so `pieceWriter.Size()` is its length), the chunk
payloads staged for the one-shot WiscKey commit (`chunkDataAll`), the
largest verified order, and the local `availableSpace` counter. -/
structure UploadLoopState where
  writerData : List Nat
  chunkDataAll : List (List Nat)
  largestOrder : Order
  availableSpace : Int
  deriving Repr, DecidableEq

/-- The writer size `pieceWriter.Size()`. -/
def UploadLoopState.size (st : UploadLoopState) : Int := st.writerData.length

/-- Outcomes of the fallible collaborator calls made during an Upload.
`limitVerify` is modelled from the spec: the outcome of
`Endpoint.verifyOrderLimit`, whose code is not part of the sources; the
endpoint returns its error unchanged. -/
structure UploadEnv where
  limitVerify : Option RpcError := none
  availableSpace : Option Int := some 0
  diskFree : Option Int := some 0
  writerOpenOk : Bool := true
  writeOk : Bool := true
  commitOk : Bool := true
  setExpirationOk : Bool := true
  signOk : Bool := true
  sendCloseOk : Bool := true
  enqueueOk : Bool := true
  addUsageOk : Bool := true
  deriving Repr, DecidableEq

/-- Result of running the Upload receive loop: the handler error (if any),
the final loop state, whether `CommitWithWiscKey` ran, and whether the
success-path `saveOrder` ran (`orderSaved`). -/
structure UploadLoopResult where
  err : Option RpcError
  st : UploadLoopState
  committed : Bool
  orderSaved : Bool
  deriving Repr, DecidableEq

/-- One iteration step of the Upload loop: either keep looping with a new
state or exit with a result. -/
inductive UploadStep where
  | cont (st : UploadLoopState)
  | exit (r : UploadLoopResult)
  deriving Repr, DecidableEq

/-- A loop exit with an error, taken before any commit or order save. -/
def failExit (e : RpcError) (st : UploadLoopState) : UploadLoopResult :=
  { err := some e, st := st, committed := false, orderSaved := false }

/-- The `message.Order != nil` block of the Upload loop: verify the order
against the largest amount so far and replace the largest order. -/
def orderStage (limit : OrderLimit) (st : UploadLoopState) :
    Option Order → UploadLoopState ⊕ UploadLoopResult
  | none => .inl st
  | some o =>
    match VerifyOrder limit o st.largestOrder.amount with
    | some e => .inr (failExit e st)
    | none => .inl { st with largestOrder := o }

/-- The `message.Chunk != nil` block of the Upload loop: the offset check,
the allocation check against the largest order, the local available-space
check, and the write (which also stages the payload for the commit). -/
def chunkStage (env : UploadEnv) (st : UploadLoopState) :
    Option PieceChunk → UploadLoopState ⊕ UploadLoopResult
  | none => .inl st
  | some c =>
    if c.offset ≠ st.size then
      .inr (failExit { code := .invalidArgument, msg := "chunk out of order" } st)
    else
      let chunkSize : Int := c.data.length
      if st.largestOrder.amount < st.size + chunkSize then
        .inr (failExit { code := .invalidArgument, msg := "not enough allocated" } st)
      else
        let st' := { st with availableSpace := st.availableSpace - chunkSize }
        if st'.availableSpace < 0 then
          .inr (failExit { code := .internal, msg := "out of space" } st')
        else if ¬ env.writeOk then
          .inr (failExit { code := .internal, msg := "write failed" } st')
        else
          .inl { st' with writerData := st'.writerData ++ c.data,
                          chunkDataAll := st'.chunkDataAll ++ [c.data] }

/-- The `message.Done != nil` block of the Upload loop: piece-hash and size
verification, the one-shot WiscKey commit of header plus staged chunks,
expiration indexing, receipt signing, the success-path order save
(`orderSaved := true`), and the close of the stream. -/
def doneStage (limit : OrderLimit) (env : UploadEnv) (st : UploadLoopState) :
    Option PieceDone → UploadStep
  | none => .cont st
  | some d =>
    if ¬ d.hashValid then
      .exit (failExit { code := .internal, msg := "piece hash verification failed" } st)
    else if d.pieceSize ≠ st.size then
      .exit (failExit { code := .invalidArgument,
                        msg := "size of finished piece does not match" } st)
    else if ¬ env.commitOk then
      .exit (failExit { code := .internal, msg := "commit failed" } st)
    else if limit.pieceExpiration ≠ 0 ∧ ¬ env.setExpirationOk then
      .exit { err := some { code := .internal, msg := "set expiration failed" },
              st := st, committed := true, orderSaved := false }
    else if ¬ env.signOk then
      .exit { err := some { code := .internal, msg := "sign piece hash failed" },
              st := st, committed := true, orderSaved := false }
    else if ¬ env.sendCloseOk then
      .exit { err := some { code := .internal, msg := "send and close failed" },
              st := st, committed := true, orderSaved := true }
    else
      .exit { err := none, st := st, committed := true, orderSaved := true }

/-- Processing of a single `pb.PieceUploadRequest` in the Upload loop:
order verification and replacement of the largest order, then the chunk
checks (offset, allocation, space) and the write, then the Done handling
(hash and size verification, commit, expiration, sign, save order, close). -/
def uploadStep (limit : OrderLimit) (env : UploadEnv) (st : UploadLoopState)
    (m : PieceUploadRequest) : UploadStep :=
  if m.order = none ∧ m.chunk = none ∧ m.done = none then
    .exit (failExit { code := .invalidArgument, msg := "expected a message" } st)
  else
    match orderStage limit st m.order with
    | .inr r => .exit r
    | .inl st =>
      match chunkStage env st m.chunk with
      | .inr r => .exit r
      | .inl st => doneStage limit env st m.done

/-- The Upload receive loop over the stream's events.  The end of the list
is the peer closing the stream, which `Upload` maps to invalid-argument
"unexpected EOF"; a cancellation surfaces as a wrapped error whose
underlying cause is canceled. -/
def uploadLoop (limit : OrderLimit) (env : UploadEnv) (st : UploadLoopState) :
    List (RecvEvent PieceUploadRequest) → UploadLoopResult
  | [] => { err := some { code := .invalidArgument, msg := "unexpected EOF" },
            st := st, committed := false, orderSaved := false }
  | .canceled :: _ =>
    { err := some { code := .internal, msg := "context canceled", canceled := true },
      st := st, committed := false, orderSaved := false }
  | .transportErr :: _ =>
    { err := some { code := .internal, msg := "stream receive failed" },
      st := st, committed := false, orderSaved := false }
  | .msg m :: rest =>
    match uploadStep limit env st m with
    | .exit r => r
    | .cont st' => uploadLoop limit env st' rest

/-- Initial state of the Upload loop, given the monitor-reported available
space: an empty writer, no staged chunks, and `largestOrder = pb.Order{}`. -/
def initUploadState (availableSpace : Int) : UploadLoopState :=
  { writerData := [], chunkDataAll := [], largestOrder := Order.zero,
    availableSpace := availableSpace }

/-- The piece blob store, modelled from the spec (the `pieces.Store` code is
not part of the sources): a map from (satellite id, piece id) to the piece's
content bytes, written all-or-nothing by `CommitWithWiscKey` with the
concatenation of the staged chunk payloads. -/
def PieceStoreMap := List ((Nat × Nat) × List Nat)

instance : DecidableEq PieceStoreMap := by
  unfold PieceStoreMap
  infer_instance

/-- Atomic commit of a piece: insert-or-overwrite. -/
def storePut (s : PieceStoreMap) (k : Nat × Nat) (v : List Nat) : PieceStoreMap :=
  (k, v) :: List.filter (fun e => e.1 ≠ k) s

/-- Open a reader on a piece: lookup. -/
def storeGet (s : PieceStoreMap) (k : Nat × Nat) : Option (List Nat) :=
  (List.find? (fun e => e.1 = k) s).map (fun e => e.2)

/-- The endpoint configuration fields the claims exercise. -/
structure Config where
  maxConcurrentRequests : Int := 0
  retainTimeBuffer : Int := 0
  deriving Repr, DecidableEq

/-- The shared state an Upload/Download touches: the live-request counter,
the orders queue and bandwidth ledger, and the piece store. -/
structure EndpointState where
  live : Int
  orders : OrdersState
  store : PieceStoreMap
  deriving DecidableEq

/-- Externally visible outcome of one Upload RPC. -/
structure UploadOutcome where
  err : Option RpcError
  bucket : Bucket
  writerOpened : Bool
  committed : Bool
  uploadSize : Int
  deriving Repr, DecidableEq

/-- Metrics bucket chosen by the deferred observer from the handler error. -/
def bucketOf (err : Option RpcError) : Bucket :=
  match err with
  | none => .success
  | some e => if e.canceled then .cancel else .failure

/-- An Upload exit on a path reached before the piece writer was opened:
no writer is canceled and no order is saved. -/
def uploadEarlyExit (e : RpcError) (es : EndpointState) : UploadOutcome × EndpointState :=
  ({ err := some e, bucket := bucketOf (some e), writerOpened := false,
     committed := false, uploadSize := 0 }, es)

/-- The `Endpoint.Upload` handler: live-request gating, first-message and action checks,
order-limit verification, capacity checks, writer open, the receive loop,
and the deferred order persistence (which runs whenever the loop exited
without having saved the order on the success path). -/
def Upload (cfg : Config) (env : UploadEnv) (first : RecvEvent PieceUploadRequest)
    (rest : List (RecvEvent PieceUploadRequest)) (es : EndpointState) :
    UploadOutcome × EndpointState :=
  let liveAfterInc := es.live + 1
  if cfg.maxConcurrentRequests > 0 ∧ liveAfterInc > cfg.maxConcurrentRequests then
    uploadEarlyExit { code := .unavailable, msg := "storage node overloaded" } es
  else
    match first with
    | .canceled =>
      uploadEarlyExit { code := .internal, msg := "context canceled", canceled := true } es
    | .transportErr =>
      uploadEarlyExit { code := .internal, msg := "stream receive failed" } es
    | .msg m =>
      match m.limit with
      | none =>
        uploadEarlyExit { code := .invalidArgument,
                          msg := "expected order limit as the first message" } es
      | some limit =>
        if limit.action ≠ .put ∧ limit.action ≠ .putRepair then
          uploadEarlyExit { code := .invalidArgument,
                            msg := "expected put or put repair action" } es
        else
          match env.limitVerify with
          | some e => uploadEarlyExit e es
          | none =>
            match env.availableSpace with
            | none => uploadEarlyExit { code := .internal, msg := "available space failed" } es
            | some availableSpace =>
              match env.diskFree with
              | none => uploadEarlyExit { code := .internal, msg := "storage status failed" } es
              | some diskFree =>
                if diskFree < limit.limit then
                  uploadEarlyExit { code := .aborted,
                                    msg := "not enough available disk space" } es
                else if ¬ env.writerOpenOk then
                  uploadEarlyExit { code := .internal, msg := "writer open failed" } es
                else
                  let r := uploadLoop limit env (initUploadState availableSpace) rest
                  let orders' := saveOrder env.enqueueOk env.addUsageOk limit
                    (some r.st.largestOrder) es.orders
                  let store' :=
                    if r.committed then
                      storePut es.store (limit.satelliteId, limit.pieceId) r.st.chunkDataAll.flatten
                    else es.store
                  ({ err := r.err, bucket := bucketOf r.err, writerOpened := true,
                     committed := r.committed, uploadSize := r.st.size },
                   { es with orders := orders', store := store' })

/-- The chunk request in the first Download message: `{offset, chunk_size}`. -/
structure ChunkRequest where
  offset : Int
  chunkSize : Int
  deriving Repr, DecidableEq

/-- The `pb.PieceDownloadRequest` message: the first message carries limit and chunk,
subsequent messages carry orders. -/
structure PieceDownloadRequest where
  limit : Option OrderLimit := none
  chunk : Option ChunkRequest := none
  order : Option Order := none
  deriving Repr, DecidableEq

/-- Result of the Download receive side: its error, the largest verified
order, and the token amounts produced into the throttle. -/
structure DownloadRecvResult where
  err : Option RpcError
  largestOrder : Order
  produced : List Int
  deriving Repr, DecidableEq

/-- The Download receive loop: EOF and cancellation return without error;
each order message is verified against the largest order so far and its
amount delta is produced into the throttle. -/
def downloadRecvLoop (limit : OrderLimit) (largest : Order) (produced : List Int) :
    List (RecvEvent PieceDownloadRequest) → DownloadRecvResult
  | [] => { err := none, largestOrder := largest, produced := produced }
  | .canceled :: _ => { err := none, largestOrder := largest, produced := produced }
  | .transportErr :: _ =>
    { err := some { code := .internal, msg := "stream receive failed" },
      largestOrder := largest, produced := produced }
  | .msg m :: rest =>
    match m.order with
    | none =>
      { err := some { code := .invalidArgument, msg := "expected order as the message" },
        largestOrder := largest, produced := produced }
    | some o =>
      match VerifyOrder limit o largest.amount with
      | some e => { err := some e, largestOrder := largest, produced := produced }
      | none => downloadRecvLoop limit o (produced ++ [o.amount - largest.amount]) rest

/-- The send-side chunking bound `maximumChunkSize = 1 * memory.MiB`. -/
def maximumChunkSize : Int := 1048576

/-- The Download send loop.  `grants` is the sequence of token amounts the
throttle's ConsumeOrWait returns (modelled from the spec: the throttle
grants at most the requested `min(unsent, 1 MiB)` per call and fails when
the receive side stops).  Returns the chunk payloads sent, and whether the
loop ran to completion (`unsent ≤ 0`) rather than exiting on throttle
failure. -/
def downloadSendLoop (pieceData : List Nat) :
    Int → Int → List Int → List (List Nat) × Bool
  | _, unsent, [] => if unsent ≤ 0 then ([], true) else ([], false)
  | offset, unsent, g :: gs =>
    if unsent ≤ 0 then ([], true)
    else
      let data := (pieceData.drop offset.toNat).take g.toNat
      let r := downloadSendLoop pieceData (offset + g) (unsent - g) gs
      (data :: r.1, r.2)

/-- The throttle contract for a grant sequence starting from `unsent`
remaining bytes: each grant is at most `min(unsent, maximumChunkSize)`. -/
def grantsValid : Int → List Int → Bool
  | _, [] => true
  | unsent, g :: gs =>
    decide (0 ≤ g) && decide (g ≤ min unsent maximumChunkSize) && grantsValid (unsent - g) gs

/-- Outcomes of the fallible collaborator calls made during a Download.
`limitVerify` is modelled from the spec (`verifyOrderLimit` is not in the
sources). -/
structure DownloadEnv where
  limitVerify : Option RpcError := none
  readOk : Bool := true
  repairSendOk : Bool := true
  enqueueOk : Bool := true
  addUsageOk : Bool := true
  deriving Repr, DecidableEq

/-- Externally visible outcome of one Download RPC. -/
structure DownloadOutcome where
  err : Option RpcError
  sent : List (List Nat)
  downloadSize : Int
  deriving Repr, DecidableEq

/-- A Download exit on a path reached before the receive loop started:
no order is saved and nothing was sent. -/
def downloadEarlyExit (e : RpcError) (es : EndpointState) : DownloadOutcome × EndpointState :=
  ({ err := some e, sent := [], downloadSize := 0 }, es)

/-- The combination `errs.Combine` of the sender's and receiver's errors, wrapped internal:
nil iff both are nil. -/
def combineErrs (sendErr recvErr : Option RpcError) : Option RpcError :=
  match sendErr, recvErr with
  | none, none => none
  | some e, _ => some { code := .internal, msg := e.msg, canceled := e.canceled }
  | none, some e => some { code := .internal, msg := e.msg, canceled := e.canceled }

/-- The `Endpoint.Download` handler: first-message checks, order-limit verification,
reader open, bounds check, then the concurrent send loop (driven by the
throttle grants) and receive loop (feeding the throttle), with the
receive side's deferred order persistence. -/
def Download (env : DownloadEnv) (first : RecvEvent PieceDownloadRequest)
    (orderEvents : List (RecvEvent PieceDownloadRequest)) (grants : List Int)
    (es : EndpointState) : DownloadOutcome × EndpointState :=
  match first with
  | .canceled =>
    downloadEarlyExit { code := .internal, msg := "context canceled", canceled := true } es
  | .transportErr =>
    downloadEarlyExit { code := .internal, msg := "stream receive failed" } es
  | .msg m =>
    match m.limit, m.chunk with
    | none, _ =>
      downloadEarlyExit { code := .invalidArgument,
                          msg := "expected order limit and chunk as the first message" } es
    | _, none =>
      downloadEarlyExit { code := .invalidArgument,
                          msg := "expected order limit and chunk as the first message" } es
    | some limit, some chunk =>
      if limit.action ≠ .get ∧ limit.action ≠ .getRepair ∧ limit.action ≠ .getAudit then
        downloadEarlyExit { code := .invalidArgument,
                            msg := "expected get or get repair or audit action" } es
      else if limit.limit < chunk.chunkSize then
        downloadEarlyExit { code := .invalidArgument,
                            msg := "requested more that order limit allows" } es
      else
        match env.limitVerify with
        | some e => downloadEarlyExit e es
        | none =>
          match storeGet es.store (limit.satelliteId, limit.pieceId) with
          | none => downloadEarlyExit { code := .notFound, msg := "file does not exist" } es
          | some pieceData =>
            if limit.action = .getRepair ∧ ¬ env.repairSendOk then
              downloadEarlyExit { code := .internal, msg := "error sending hash and order limit" } es
            else if (pieceData.length : Int) < chunk.offset + chunk.chunkSize then
              downloadEarlyExit { code := .invalidArgument,
                                  msg := "requested more data than available" } es
            else
              let send : Option RpcError × List (List Nat) :=
                if ¬ env.readOk then
                  (some { code := .internal, msg := "read failed" }, [])
                else
                  (none, (downloadSendLoop pieceData chunk.offset chunk.chunkSize grants).1)
              let r := downloadRecvLoop limit Order.zero [] orderEvents
              let orders' := saveOrder env.enqueueOk env.addUsageOk limit
                (some r.largestOrder) es.orders
              ({ err := combineErrs send.1 r.err, sent := send.2,
                 downloadSize := pieceData.length },
               { es with orders := orders' })

/-- Retain service status (`retain.Status`). -/
inductive RetainStatus where
  | disabled
  | enabled
  | debug
  deriving Repr, DecidableEq

/-- Environment of a Retain call: the configured service status, the peer
identity from the TLS context (none = missing), the trust set, the outcome
of parsing the bloom-filter bytes, and whether the retain service accepts
the queued request. -/
structure RetainEnv where
  status : RetainStatus
  peer : Option Nat
  trusted : Nat → Bool
  filterOk : Bool
  queueAccepts : Bool

/-- The `retain.Request` record (bloom filter omitted). -/
structure RetainQueuedRequest where
  satelliteId : Nat
  createdBefore : Int
  deriving Repr, DecidableEq

/-- Modelled from the spec: `retain.Service.Queue` (the retain service code
is not part of the sources).  Per the endpoint's comment "the queue function
will update the created before time based on the configurable retain buffer"
and the spec, it subtracts the retain-time-buffer from the request's
created-before before storing it. -/
def retainServiceQueue (buffer : Int) (r : RetainQueuedRequest) : RetainQueuedRequest :=
  { r with createdBefore := r.createdBefore - buffer }

/-- Result of one Retain RPC: the error, the request the endpoint handed to
`retain.Queue` (unmodified by the endpoint), and the request the service
stored. -/
structure RetainCallResult where
  err : Option RpcError
  passedToQueue : Option RetainQueuedRequest
  stored : Option RetainQueuedRequest
  deriving Repr, DecidableEq

/-- The `Endpoint.Retain` handler: quit immediately when retain is disabled, then
authenticate and trust-check the peer, parse the filter, and queue the
request carrying the supplied creation date unchanged. -/
def Retain (cfg : Config) (env : RetainEnv) (creationDate : Int) : RetainCallResult :=
  if env.status = RetainStatus.disabled then
    { err := none, passedToQueue := none, stored := none }
  else
    match env.peer with
    | none =>
      { err := some { code := .unauthenticated, msg := "missing peer identity" },
        passedToQueue := none, stored := none }
    | some id =>
      if ¬ env.trusted id then
        { err := some { code := .permissionDenied, msg := "retain called with untrusted ID" },
          passedToQueue := none, stored := none }
      else if ¬ env.filterOk then
        { err := some { code := .invalidArgument, msg := "bloom filter parse failed" },
          passedToQueue := none, stored := none }
      else
        let r : RetainQueuedRequest := { satelliteId := id, createdBefore := creationDate }
        { err := none, passedToQueue := some r,
          stored := if env.queueAccepts then some (retainServiceQueue cfg.retainTimeBuffer r)
                    else none }

/-- The kinds of events touching the live-request counter.  A rejected
upload's increment-then-reject window is netted out (the claim explicitly
ignores it). -/
inductive ReqEvent where
  | beginUpload
  | beginDownload
  | beginDelete
  | endRequest
  deriving Repr, DecidableEq

/-- One transition of the live-request counter.  Only `Upload` checks the
configured cap; `Download` and `Delete` increment unconditionally. -/
def limiterStep (maxReq : Int) (live : Int) : ReqEvent → Int
  | .beginUpload => if maxReq > 0 ∧ live + 1 > maxReq then live else live + 1
  | .beginDownload => live + 1
  | .beginDelete => live + 1
  | .endRequest => live - 1

/-- The live-request counter after a sequence of request events, starting
from `live`. -/
def limiterRun (maxReq : Int) (live : Int) (evs : List ReqEvent) : Int :=
  evs.foldl (limiterStep maxReq) live

/-! ## Helper lemmas -/

/-- A verified order's amount is at least the previous largest amount. -/
theorem VerifyOrder_none_le {limit : OrderLimit} {o : Order} {prev : Int}
    (h : VerifyOrder limit o prev = none) : prev ≤ o.amount := by
  unfold VerifyOrder at h
  split_ifs at h with h1 h2 h3 h4
  omega

/-- Reading back a freshly committed piece returns its bytes. -/
theorem storeGet_storePut_self (s : PieceStoreMap) (k : Nat × Nat) (v : List Nat) :
    storeGet (storePut s k v) k = some v := by
  simp [storeGet, storePut, List.find?_cons]

/-- The invariant maintained by the Upload loop: the writer's bytes are the
concatenation of the staged chunk payloads, and every written byte is
covered by the current largest verified order. -/
def UploadInv (st : UploadLoopState) : Prop :=
  st.writerData = st.chunkDataAll.flatten ∧
  (st.writerData = [] ∨ (st.writerData.length : Int) ≤ st.largestOrder.amount)

/-- The order stage only replaces the largest order by a verified one with
at least the same amount; writer state is untouched. -/
theorem orderStage_inl {limit : OrderLimit} {st st' : UploadLoopState} {mo : Option Order}
    (h : orderStage limit st mo = .inl st') :
    st'.writerData = st.writerData ∧ st'.chunkDataAll = st.chunkDataAll ∧
      st.largestOrder.amount ≤ st'.largestOrder.amount := by
  match mo with
  | none =>
    simp only [orderStage] at h
    cases h
    exact ⟨rfl, rfl, le_refl _⟩
  | some o =>
    simp only [orderStage] at h
    cases hv : VerifyOrder limit o st.largestOrder.amount with
    | some e => rw [hv] at h; cases h
    | none =>
      rw [hv] at h
      cases h
      exact ⟨rfl, rfl, VerifyOrder_none_le hv⟩

/-- The order stage fails without touching the state. -/
theorem orderStage_inr {limit : OrderLimit} {st : UploadLoopState} {mo : Option Order}
    {r : UploadLoopResult} (h : orderStage limit st mo = .inr r) :
    r.st = st ∧ r.err ≠ none ∧ r.committed = false := by
  match mo with
  | none =>
    simp only [orderStage] at h
    exact Sum.noConfusion h
  | some o =>
    simp only [orderStage] at h
    cases hv : VerifyOrder limit o st.largestOrder.amount with
    | some e =>
      rw [hv] at h
      cases h
      exact ⟨rfl, by simp [failExit], rfl⟩
    | none =>
      rw [hv] at h
      exact Sum.noConfusion h

/-- A chunk stage that keeps looping either carried no chunk (state
untouched) or appended the accepted payload to both the writer and the
staged commit data, every written byte covered by the largest verified
order; the largest order itself is untouched. -/
theorem chunkStage_inl {env : UploadEnv} {st st' : UploadLoopState} {mc : Option PieceChunk}
    (h : chunkStage env st mc = .inl st') :
    st'.largestOrder = st.largestOrder ∧
      ((st'.writerData = st.writerData ∧ st'.chunkDataAll = st.chunkDataAll) ∨
       (∃ d, st'.writerData = st.writerData ++ d ∧ st'.chunkDataAll = st.chunkDataAll ++ [d] ∧
          st'.size ≤ st.largestOrder.amount)) := by
  match mc with
  | none =>
    simp only [chunkStage] at h
    cases h
    exact ⟨rfl, Or.inl ⟨rfl, rfl⟩⟩
  | some c =>
    simp only [chunkStage] at h
    split_ifs at h with h1 h2 h3 h4
    cases h
    refine ⟨rfl, Or.inr ⟨c.data, rfl, rfl, ?_⟩⟩
    simp only [UploadLoopState.size] at h2 ⊢
    simp only [List.length_append]
    push_cast
    omega

/-- A rejected chunk leaves the writer's bytes unchanged. -/
theorem chunkStage_inr {env : UploadEnv} {st : UploadLoopState} {mc : Option PieceChunk}
    {r : UploadLoopResult} (h : chunkStage env st mc = .inr r) :
    r.st.writerData = st.writerData ∧ r.st.chunkDataAll = st.chunkDataAll ∧
      r.st.largestOrder = st.largestOrder ∧ r.err ≠ none ∧ r.committed = false := by
  match mc with
  | none =>
    simp only [chunkStage] at h
    exact Sum.noConfusion h
  | some c =>
    simp only [chunkStage] at h
    split_ifs at h with h1 h2 h3 h4 <;> cases h <;>
      exact ⟨rfl, rfl, rfl, by simp [failExit], rfl⟩

/-- The done stage never changes the loop state. -/
theorem doneStage_state {limit : OrderLimit} {env : UploadEnv} {st : UploadLoopState}
    {md : Option PieceDone} :
    (∀ st', doneStage limit env st md = .cont st' → st' = st) ∧
    (∀ r, doneStage limit env st md = .exit r → r.st = st) := by
  constructor
  · intro st' h
    match md with
    | none => simpa [doneStage] using h.symm
    | some d =>
      simp only [doneStage] at h
      split_ifs at h
  · intro r h
    match md with
    | none =>
      simp only [doneStage] at h
      exact UploadStep.noConfusion h
    | some d =>
      simp only [doneStage] at h
      split_ifs at h <;> cases h <;> rfl

/-- A done-stage exit without error has committed and saved the order. -/
theorem doneStage_exit_err_none {limit : OrderLimit} {env : UploadEnv} {st : UploadLoopState}
    {md : Option PieceDone} {r : UploadLoopResult} (h : doneStage limit env st md = .exit r)
    (he : r.err = none) : r.committed = true ∧ r.orderSaved = true := by
  match md with
  | none =>
    simp only [doneStage] at h
    exact UploadStep.noConfusion h
  | some d =>
    simp only [doneStage] at h
    split_ifs at h <;> cases h <;> simp_all [failExit]

/-- One Upload-loop step preserves the loop invariant, whether it keeps
looping or exits. -/
theorem uploadStep_inv {limit : OrderLimit} {env : UploadEnv} {st : UploadLoopState}
    {m : PieceUploadRequest} :
    (∀ st', uploadStep limit env st m = .cont st' → UploadInv st → UploadInv st') ∧
    (∀ r, uploadStep limit env st m = .exit r → UploadInv st → UploadInv r.st) := by
  have transfer : ∀ s s' : UploadLoopState,
      s'.writerData = s.writerData → s'.chunkDataAll = s.chunkDataAll →
      s.largestOrder.amount ≤ s'.largestOrder.amount → UploadInv s → UploadInv s' := by
    intro s s' hw hc hl ⟨h1, h2⟩
    refine ⟨by rw [hw, hc, h1], ?_⟩
    rcases h2 with h2 | h2
    · exact Or.inl (hw ▸ h2)
    · exact Or.inr (by rw [hw]; omega)
  have chunkTransfer : ∀ (s s' : UploadLoopState),
      chunkStage env s m.chunk = .inl s' → UploadInv s → UploadInv s' := by
    intro s s' hc hinv
    obtain ⟨hlo, hcase⟩ := chunkStage_inl hc
    rcases hcase with ⟨hw, hca⟩ | ⟨d, hw, hca, hsz⟩
    · exact transfer s s' hw hca (le_of_eq (congrArg Order.amount hlo.symm)) hinv
    · obtain ⟨h1, _⟩ := hinv
      refine ⟨by rw [hw, hca, List.flatten_append, h1]; simp, Or.inr ?_⟩
      simp only [UploadLoopState.size] at hsz
      rw [hlo]
      exact hsz
  unfold uploadStep
  by_cases hempty : m.order = none ∧ m.chunk = none ∧ m.done = none
  · rw [if_pos hempty]
    refine ⟨fun st' h => UploadStep.noConfusion h, fun r h hinv => ?_⟩
    cases h
    exact hinv
  · rw [if_neg hempty]
    cases ho : orderStage limit st m.order with
    | inr r' =>
      dsimp only
      refine ⟨fun st' h => UploadStep.noConfusion h, fun r h hinv => ?_⟩
      cases h
      rw [(orderStage_inr ho).1]
      exact hinv
    | inl st1 =>
      dsimp only
      obtain ⟨hw1, hc1, hl1⟩ := orderStage_inl ho
      have hinv1 : UploadInv st → UploadInv st1 := transfer st st1 hw1 hc1 hl1
      cases hc : chunkStage env st1 m.chunk with
      | inr r' =>
        dsimp only
        refine ⟨fun st' h => UploadStep.noConfusion h, fun r h hinv => ?_⟩
        cases h
        obtain ⟨hw2, hc2, hl2, _, _⟩ := chunkStage_inr hc
        exact transfer st1 r'.st hw2 hc2 (le_of_eq (congrArg Order.amount hl2.symm))
          (hinv1 hinv)
      | inl st2 =>
        dsimp only
        have hinv2 : UploadInv st → UploadInv st2 := fun hv =>
          chunkTransfer st1 st2 hc (hinv1 hv)
        constructor
        · intro st' h hv
          rw [(doneStage_state).1 st' h]
          exact hinv2 hv
        · intro r h hv
          rw [(doneStage_state).2 r h]
          exact hinv2 hv

/-- The Upload loop preserves the loop invariant. -/
theorem uploadLoop_inv {limit : OrderLimit} {env : UploadEnv} :
    ∀ (evs : List (RecvEvent PieceUploadRequest)) (st : UploadLoopState),
      UploadInv st → UploadInv (uploadLoop limit env st evs).st
  | [], st, h => h
  | .canceled :: _, st, h => h
  | .transportErr :: _, st, h => h
  | .msg m :: rest, st, h => by
    simp only [uploadLoop]
    cases hs : uploadStep limit env st m with
    | exit r => exact (uploadStep_inv).2 r hs h
    | cont st' => exact uploadLoop_inv rest st' ((uploadStep_inv).1 st' hs h)

/-- An Upload-loop step that exits without error has committed. -/
theorem uploadStep_exit_err_none {limit : OrderLimit} {env : UploadEnv} {st : UploadLoopState}
    {m : PieceUploadRequest} {r : UploadLoopResult} (h : uploadStep limit env st m = .exit r)
    (he : r.err = none) : r.committed = true ∧ r.orderSaved = true := by
  unfold uploadStep at h
  by_cases hempty : m.order = none ∧ m.chunk = none ∧ m.done = none
  · rw [if_pos hempty] at h
    cases h
    simp [failExit] at he
  · rw [if_neg hempty] at h
    cases ho : orderStage limit st m.order with
    | inr r' =>
      rw [ho] at h
      dsimp only at h
      cases h
      exact absurd he (orderStage_inr ho).2.1
    | inl st1 =>
      rw [ho] at h
      dsimp only at h
      cases hc : chunkStage env st1 m.chunk with
      | inr r' =>
        rw [hc] at h
        dsimp only at h
        cases h
        exact absurd he (chunkStage_inr hc).2.2.2.1
      | inl st2 =>
        rw [hc] at h
        dsimp only at h
        exact doneStage_exit_err_none h he

/-- An Upload loop run that ends without error has committed the piece. -/
theorem uploadLoop_err_none {limit : OrderLimit} {env : UploadEnv} :
    ∀ (evs : List (RecvEvent PieceUploadRequest)) (st : UploadLoopState),
      (uploadLoop limit env st evs).err = none →
      (uploadLoop limit env st evs).committed = true
  | [], _, he => by simp [uploadLoop] at he
  | .canceled :: _, _, he => by simp [uploadLoop] at he
  | .transportErr :: _, _, he => by simp [uploadLoop] at he
  | .msg m :: rest, st, he => by
    simp only [uploadLoop] at he ⊢
    cases hs : uploadStep limit env st m with
    | exit r =>
      rw [hs] at he
      dsimp only at he ⊢
      exact (uploadStep_exit_err_none hs he).1
    | cont st' =>
      rw [hs] at he
      dsimp only at he ⊢
      exact uploadLoop_err_none rest st' he

/-- Unfolding of `Upload` on a run that passes the prologue checks and
enters the receive loop. -/
theorem Upload_run (cfg : Config) (env : UploadEnv) (m : PieceUploadRequest)
    (limit : OrderLimit) (rest : List (RecvEvent PieceUploadRequest)) (es : EndpointState)
    (avail free : Int)
    (hcap : ¬ (cfg.maxConcurrentRequests > 0 ∧ es.live + 1 > cfg.maxConcurrentRequests))
    (hlim : m.limit = some limit)
    (hact : limit.action = .put ∨ limit.action = .putRepair)
    (hver : env.limitVerify = none)
    (havail : env.availableSpace = some avail)
    (hfree : env.diskFree = some free)
    (hfits : ¬ free < limit.limit)
    (hopen : env.writerOpenOk = true) :
    Upload cfg env (.msg m) rest es =
      ({ err := (uploadLoop limit env (initUploadState avail) rest).err,
         bucket := bucketOf (uploadLoop limit env (initUploadState avail) rest).err,
         writerOpened := true,
         committed := (uploadLoop limit env (initUploadState avail) rest).committed,
         uploadSize := (uploadLoop limit env (initUploadState avail) rest).st.size },
       { es with
           orders := saveOrder env.enqueueOk env.addUsageOk limit
             (some (uploadLoop limit env (initUploadState avail) rest).st.largestOrder)
             es.orders,
           store := if (uploadLoop limit env (initUploadState avail) rest).committed then
               storePut es.store (limit.satelliteId, limit.pieceId)
                 (uploadLoop limit env (initUploadState avail) rest).st.chunkDataAll.flatten
             else es.store }) := by
  have hact' : ¬ (limit.action ≠ PieceAction.put ∧ limit.action ≠ PieceAction.putRepair) := by
    rcases hact with h | h <;> simp [h]
  simp only [Upload, hlim, hver, havail, hfree, hopen]
  rw [if_neg hcap, if_neg hact', if_neg hfits]
  simp

/-- Unfolding of `Download` on a run that passes the prologue checks and
enters the transfer loops, for a piece present in the store. -/
theorem Download_run (env : DownloadEnv) (m : PieceDownloadRequest) (limit : OrderLimit)
    (chunk : ChunkRequest) (orderEvents : List (RecvEvent PieceDownloadRequest))
    (grants : List Int) (es : EndpointState) (pieceData : List Nat)
    (hlim : m.limit = some limit)
    (hchunk : m.chunk = some chunk)
    (hact : limit.action = .get ∨ limit.action = .getRepair ∨ limit.action = .getAudit)
    (hsize : ¬ limit.limit < chunk.chunkSize)
    (hver : env.limitVerify = none)
    (hpiece : storeGet es.store (limit.satelliteId, limit.pieceId) = some pieceData)
    (hrepair : ¬ (limit.action = .getRepair ∧ ¬ env.repairSendOk))
    (hbound : ¬ ((pieceData.length : Int) < chunk.offset + chunk.chunkSize)) :
    Download env (.msg m) orderEvents grants es =
      ({ err := combineErrs
           (if ¬ env.readOk then some { code := .internal, msg := "read failed" } else none)
           (downloadRecvLoop limit Order.zero [] orderEvents).err,
         sent := if ¬ env.readOk then []
                 else (downloadSendLoop pieceData chunk.offset chunk.chunkSize grants).1,
         downloadSize := pieceData.length },
       { es with orders := saveOrder env.enqueueOk env.addUsageOk limit
                   (some (downloadRecvLoop limit Order.zero [] orderEvents).largestOrder)
                   es.orders }) := by
  have hact' : ¬ (limit.action ≠ PieceAction.get ∧ limit.action ≠ PieceAction.getRepair ∧
      limit.action ≠ PieceAction.getAudit) := by
    rcases hact with h | h | h <;> simp [h]
  simp only [Download, hlim, hchunk, hver, hpiece]
  rw [if_neg hact', if_neg hsize, if_neg hrepair, if_neg hbound]
  by_cases hr : env.readOk <;> simp [hr]

/-- A completed send loop under the throttle contract transmits exactly the
requested range of the piece. -/
theorem downloadSendLoop_complete (pieceData : List Nat) :
    ∀ (grants : List Int) (offset unsent : Int),
      0 ≤ offset → 0 ≤ unsent → offset + unsent ≤ (pieceData.length : Int) →
      grantsValid unsent grants = true →
      (downloadSendLoop pieceData offset unsent grants).2 = true →
      (downloadSendLoop pieceData offset unsent grants).1.flatten
        = (pieceData.drop offset.toNat).take unsent.toNat
  | [], offset, unsent, ho, hu, hb, hg, hc => by
    simp only [downloadSendLoop] at hc ⊢
    split at hc
    · next h =>
      have hz : unsent = 0 := le_antisymm h hu
      simp [hz]
    · exact absurd hc (by simp)
  | g :: gs, offset, unsent, ho, hu, hb, hg, hc => by
    simp only [grantsValid, Bool.and_eq_true, decide_eq_true_eq] at hg
    obtain ⟨⟨hg0, hgm⟩, hgs⟩ := hg
    have hgu : g ≤ unsent := le_trans hgm (min_le_left _ _)
    simp only [downloadSendLoop] at hc ⊢
    by_cases hz : unsent ≤ 0
    · rw [if_pos hz] at hc ⊢
      have hz0 : unsent = 0 := le_antisymm hz hu
      simp [hz0]
    · rw [if_neg hz] at hc ⊢
      have ih := downloadSendLoop_complete pieceData gs (offset + g) (unsent - g)
        (by omega) (by omega) (by omega) hgs hc
      simp only [List.flatten_cons, ih]
      have e1 : (offset + g).toNat = offset.toNat + g.toNat := by omega
      have e2 : (unsent - g).toNat = unsent.toNat - g.toNat := by omega
      have e3 : g.toNat ≤ unsent.toNat := by omega
      rw [e1, e2]
      rw [← List.drop_drop g.toNat offset.toNat pieceData]
      rw [← List.take_add (pieceData.drop offset.toNat) g.toNat (unsent.toNat - g.toNat)]
      congr 1
      omega

/-- The live-request counter stays within the cap on executions consisting
only of uploads and request exits. -/
theorem limiterRun_le {maxReq : Int} :
    ∀ (evs : List ReqEvent) (live : Int), 0 < maxReq → live ≤ maxReq →
      (∀ e ∈ evs, e = ReqEvent.beginUpload ∨ e = ReqEvent.endRequest) →
      limiterRun maxReq live evs ≤ maxReq
  | [], live, _, h, _ => h
  | e :: evs, live, hm, h, hall => by
    have hstep : limiterStep maxReq live e ≤ maxReq := by
      rcases hall e (List.mem_cons_self e evs) with he | he <;> subst he <;>
        simp only [limiterStep]
      · split <;> omega
      · omega
    have htail : ∀ e' ∈ evs, e' = ReqEvent.beginUpload ∨ e' = ReqEvent.endRequest :=
      fun e' he' => hall e' (List.mem_cons_of_mem _ he')
    simpa [limiterRun] using limiterRun_le evs (limiterStep maxReq live e) hm hstep htail

/-- With a successful enqueue, persisting a positive order appends exactly
one queue record. -/
theorem saveOrder_queue_pos {addOk : Bool} {limit : OrderLimit} {o : Order} {st : OrdersState}
    (hpos : 0 < o.amount) :
    (saveOrder true addOk limit (some o) st).queue
      = st.queue ++ [{ limit := limit, order := o }] := by
  simp only [saveOrder]
  rw [if_neg (by omega)]
  cases addOk <;> simp

/-! ## Concrete fixtures used by the witnesses and counterexamples -/

/-- A concrete put order limit. -/
def limitW : OrderLimit :=
  { satelliteId := 1, pieceId := 2, serialNumber := 5, limit := 100, action := .put }

/-- A concrete valid order of the given amount for `limitW`. -/
def orderW (a : Int) : Order := { serialNumber := 5, amount := a, sigValid := true }

/-- A concrete upload environment with ample space and healthy collaborators. -/
def envW : UploadEnv := { availableSpace := some 1000, diskFree := some 1000 }

/-- A fresh endpoint state. -/
def esW : EndpointState := { live := 0, orders := { queue := [], ledger := [] }, store := [] }

/-- The first upload message carrying `limitW`. -/
def firstMsgW : PieceUploadRequest := { limit := some limitW }

/-- The default configuration (no concurrency cap). -/
def cfgW : Config := {}

/-- A successful upload session: one order for 3 bytes, two chunks, done. -/
def goodEventsW : List (RecvEvent PieceUploadRequest) :=
  [.msg { order := some (orderW 3) },
   .msg { chunk := some { offset := 0, data := [1, 2] } },
   .msg { chunk := some { offset := 2, data := [3] } },
   .msg { done := some { pieceSize := 3, hashValid := true } }]

/-- A concrete get order limit for the piece uploaded by `goodEventsW`. -/
def dlimitW : OrderLimit :=
  { satelliteId := 1, pieceId := 2, serialNumber := 6, limit := 100, action := .get }

/-- The first download message: `dlimitW` plus a full-piece chunk request. -/
def dfirstMsgW : PieceDownloadRequest :=
  { limit := some dlimitW, chunk := some { offset := 0, chunkSize := 3 } }

/-- A concrete valid order of the given amount for `dlimitW`. -/
def dorderW (a : Int) : Order := { serialNumber := 6, amount := a, sigValid := true }

/-- An endpoint state already holding the piece (1, 2) ↦ [1, 2, 3]. -/
def esStoreW : EndpointState :=
  { live := 0, orders := { queue := [], ledger := [] }, store := [((1, 2), [1, 2, 3])] }

/-! ## Claims -/

/-- C2: during an Upload, writer.size() always equals the cumulative length
of all chunk.data payloads received so far in the order received (the
writer's bytes are exactly the concatenation of the staged payloads), and
an inbound chunk whose offset differs from the current writer size exits
the session with invalid-argument "chunk out of order", the state — and in
particular the writer's bytes — untouched. -/
theorem upload_chunk_ordering :
    (∀ (limit : OrderLimit) (env : UploadEnv) (avail : Int)
        (evs : List (RecvEvent PieceUploadRequest)),
      (uploadLoop limit env (initUploadState avail) evs).st.writerData
          = (uploadLoop limit env (initUploadState avail) evs).st.chunkDataAll.flatten ∧
      (uploadLoop limit env (initUploadState avail) evs).st.size
          = (((uploadLoop limit env (initUploadState avail) evs).st.chunkDataAll.map
              List.length).sum : Int)) ∧
    (∀ (env : UploadEnv) (st : UploadLoopState) (c : PieceChunk),
      c.offset ≠ st.size →
      chunkStage env st (some c)
        = .inr (failExit { code := .invalidArgument, msg := "chunk out of order" } st)) := by
  constructor
  · intro limit env avail evs
    have hinv : UploadInv (uploadLoop limit env (initUploadState avail) evs).st :=
      uploadLoop_inv evs _ ⟨rfl, Or.inl rfl⟩
    obtain ⟨h1, _⟩ := hinv
    refine ⟨h1, ?_⟩
    simp [UploadLoopState.size, h1]
  · intro env st c hoff
    simp only [chunkStage]
    rw [if_pos hoff]

/-- Witness for C2: the empty-writer state rejects a chunk at offset 5. -/
theorem upload_chunk_ordering_witness :
    chunkStage envW (initUploadState 1000) (some { offset := 5, data := [9] })
      = .inr (failExit { code := .invalidArgument, msg := "chunk out of order" }
          (initUploadState 1000)) :=
  upload_chunk_ordering.2 envW (initUploadState 1000) { offset := 5, data := [9] } (by decide)

/-- C3: a chunk is written only when the largest verified order's amount
covers the writer size plus the chunk length (an accepted chunk's resulting
size is bounded by the order's amount); an in-order chunk exceeding the
allocation exits with invalid-argument "not enough allocated" without
writing; and over any session every written byte stays covered by the
largest verified order. -/
theorem upload_allocation_bound :
    (∀ (env : UploadEnv) (st : UploadLoopState) (c : PieceChunk),
      c.offset = st.size → st.largestOrder.amount < st.size + (c.data.length : Int) →
      chunkStage env st (some c)
        = .inr (failExit { code := .invalidArgument, msg := "not enough allocated" } st)) ∧
    (∀ (env : UploadEnv) (st st' : UploadLoopState) (c : PieceChunk),
      chunkStage env st (some c) = .inl st' →
      st'.writerData = st.writerData ++ c.data ∧ st'.size ≤ st.largestOrder.amount) ∧
    (∀ (limit : OrderLimit) (env : UploadEnv) (avail : Int)
        (evs : List (RecvEvent PieceUploadRequest)),
      (uploadLoop limit env (initUploadState avail) evs).st.writerData = [] ∨
        (((uploadLoop limit env (initUploadState avail) evs).st.writerData.length : Int)
          ≤ (uploadLoop limit env (initUploadState avail) evs).st.largestOrder.amount)) := by
  refine ⟨?_, ?_, ?_⟩
  · intro env st c hoff halloc
    simp only [chunkStage]
    rw [if_neg (by simp [hoff]), if_pos halloc]
  · intro env st st' c h
    simp only [chunkStage] at h
    split_ifs at h with h1 h2 h3 h4
    cases h
    refine ⟨rfl, ?_⟩
    simp only [UploadLoopState.size, List.length_append] at h2 ⊢
    push_cast
    omega
  · intro limit env avail evs
    exact (uploadLoop_inv evs _ ⟨rfl, Or.inl rfl⟩).2

/-- Witness for C3: with no order yet, a 1-byte chunk at offset 0 is
rejected as not enough allocated. -/
theorem upload_allocation_bound_witness :
    chunkStage envW (initUploadState 1000) (some { offset := 0, data := [9] })
      = .inr (failExit { code := .invalidArgument, msg := "not enough allocated" }
          (initUploadState 1000)) :=
  upload_allocation_bound.1 envW (initUploadState 1000) { offset := 0, data := [9] }
    (by decide) (by decide)

/-- C10: the deferred order-persist is a no-op when the largest verified
order has amount ≤ 0 (no queue record, ledger unchanged), it is also a
no-op when the order is missing, and the bandwidth ledger changes only when
the orders-queue enqueue succeeded. -/
theorem saveOrder_frame (enq addOk : Bool) (limit : OrderLimit) (o : Order) (st : OrdersState) :
    (o.amount ≤ 0 → saveOrder enq addOk limit (some o) st = st) ∧
    (saveOrder enq addOk limit none st = st) ∧
    ((saveOrder enq addOk limit (some o) st).ledger ≠ st.ledger → enq = true) := by
  refine ⟨?_, rfl, ?_⟩
  · intro h
    simp [saveOrder, h]
  · intro hch
    by_contra hf
    have henq : enq = false := by cases enq <;> simp_all
    subst henq
    apply hch
    simp only [saveOrder]
    split_ifs <;> simp_all

/-- Witness for C10: a zero-amount order is not persisted. -/
theorem saveOrder_frame_witness :
    saveOrder true true limitW (some (orderW 0)) { queue := [], ledger := [] }
      = { queue := [], ledger := [] } :=
  (saveOrder_frame true true limitW (orderW 0) { queue := [], ledger := [] }).1 (by decide)

/-- Counterexample to C1 as stated: an upload session that received one
valid order — of amount 0, which `VerifyOrder` accepts — and then lost the
stream leaves the orders queue without any record for the session, because
`saveOrder` skips non-positive amounts; the claim demanded exactly one
record after any session with at least one valid order. -/
theorem no_lost_orders_counterexample :
    VerifyOrder limitW (orderW 0) Order.zero.amount = none ∧
    (Upload cfgW envW (.msg firstMsgW) [.msg { order := some (orderW 0) }] esW).1.err ≠ none ∧
    (Upload cfgW envW (.msg firstMsgW) [.msg { order := some (orderW 0) }] esW).2.orders.queue
      = [] := by
  refine ⟨by decide, by decide, by decide⟩

/-- C1 (amended): for any Upload or Download session that entered its
transfer loop and whose largest verified order has positive amount (in
particular any session that received at least one valid order of positive
amount), if the orders-queue enqueue succeeds then after the RPC the orders
queue contains exactly one new record for the session, equal to the largest
verified order — on every exit path, the save being deferred. -/
theorem no_lost_orders :
    (∀ (cfg : Config) (env : UploadEnv) (m : PieceUploadRequest) (limit : OrderLimit)
        (rest : List (RecvEvent PieceUploadRequest)) (es : EndpointState) (avail free : Int),
      ¬ (cfg.maxConcurrentRequests > 0 ∧ es.live + 1 > cfg.maxConcurrentRequests) →
      m.limit = some limit →
      (limit.action = .put ∨ limit.action = .putRepair) →
      env.limitVerify = none →
      env.availableSpace = some avail →
      env.diskFree = some free →
      ¬ free < limit.limit →
      env.writerOpenOk = true →
      env.enqueueOk = true →
      0 < (uploadLoop limit env (initUploadState avail) rest).st.largestOrder.amount →
      (Upload cfg env (.msg m) rest es).2.orders.queue
        = es.orders.queue ++
            [{ limit := limit,
               order := (uploadLoop limit env (initUploadState avail) rest).st.largestOrder }]) ∧
    (∀ (env : DownloadEnv) (m : PieceDownloadRequest) (limit : OrderLimit)
        (chunk : ChunkRequest) (orderEvents : List (RecvEvent PieceDownloadRequest))
        (grants : List Int) (es : EndpointState) (pieceData : List Nat),
      m.limit = some limit →
      m.chunk = some chunk →
      (limit.action = .get ∨ limit.action = .getRepair ∨ limit.action = .getAudit) →
      ¬ limit.limit < chunk.chunkSize →
      env.limitVerify = none →
      storeGet es.store (limit.satelliteId, limit.pieceId) = some pieceData →
      ¬ (limit.action = .getRepair ∧ ¬ env.repairSendOk) →
      ¬ ((pieceData.length : Int) < chunk.offset + chunk.chunkSize) →
      env.enqueueOk = true →
      0 < (downloadRecvLoop limit Order.zero [] orderEvents).largestOrder.amount →
      (Download env (.msg m) orderEvents grants es).2.orders.queue
        = es.orders.queue ++
            [{ limit := limit,
               order := (downloadRecvLoop limit Order.zero [] orderEvents).largestOrder }]) := by
  constructor
  · intro cfg env m limit rest es avail free hcap hlim hact hver havail hfree hfits hopen
      henq hpos
    rw [Upload_run cfg env m limit rest es avail free hcap hlim hact hver havail hfree
      hfits hopen]
    simp only
    rw [henq]
    exact saveOrder_queue_pos hpos
  · intro env m limit chunk orderEvents grants es pieceData hlim hchunk hact hsize hver
      hpiece hrepair hbound henq hpos
    rw [Download_run env m limit chunk orderEvents grants es pieceData hlim hchunk hact
      hsize hver hpiece hrepair hbound]
    simp only
    rw [henq]
    exact saveOrder_queue_pos hpos

/-- Witness for C1 (amended): a concrete canceled upload and a concrete
downloaded session each leave exactly their largest order in the queue. -/
theorem no_lost_orders_witness :
    (Upload cfgW envW (.msg firstMsgW) [.msg { order := some (orderW 3) }] esW).2.orders.queue
        = [{ limit := limitW, order := orderW 3 }] ∧
    (Download {} (.msg dfirstMsgW) [.msg { order := some (dorderW 3) }] [3]
        esStoreW).2.orders.queue
        = [{ limit := dlimitW, order := dorderW 3 }] :=
  ⟨no_lost_orders.1 cfgW envW firstMsgW limitW [.msg { order := some (orderW 3) }] esW
      1000 1000 (by decide) (by decide) (Or.inl (by decide)) (by decide) (by decide)
      (by decide) (by decide) (by decide) (by decide) (by decide),
   no_lost_orders.2 {} dfirstMsgW dlimitW { offset := 0, chunkSize := 3 }
      [.msg { order := some (dorderW 3) }] [3] esStoreW [1, 2, 3] (by decide) (by decide)
      (Or.inl (by decide)) (by decide) (by decide) (by decide) (by decide) (by decide)
      (by decide) (by decide)⟩

/-- Counterexample to C4 as stated: with max-concurrent-requests = 1, two
concurrent Downloads drive the live-request counter to 2 — above the cap —
because only Upload checks the cap; neither download is rejected. -/
theorem concurrency_cap_counterexample :
    limiterRun 1 0 [ReqEvent.beginDownload, ReqEvent.beginDownload] = 2 ∧
    ¬ limiterRun 1 0 [ReqEvent.beginDownload, ReqEvent.beginDownload] ≤ 1 := by
  refine ⟨by decide, by decide⟩

/-- C4 (amended): the configured cap gates only Upload — an Upload whose
post-increment counter value exceeds N is rejected with unavailable, and in
any execution consisting solely of uploads and request exits the counter
never exceeds N; Download and Delete increment the counter unconditionally,
so the cap does not bound the counter once they participate. -/
theorem concurrency_cap :
    (∀ (maxReq : Int) (evs : List ReqEvent), 0 < maxReq →
      (∀ e ∈ evs, e = ReqEvent.beginUpload ∨ e = ReqEvent.endRequest) →
      limiterRun maxReq 0 evs ≤ maxReq) ∧
    (∀ (cfg : Config) (env : UploadEnv) (first : RecvEvent PieceUploadRequest)
        (rest : List (RecvEvent PieceUploadRequest)) (es : EndpointState),
      0 < cfg.maxConcurrentRequests → cfg.maxConcurrentRequests < es.live + 1 →
      (Upload cfg env first rest es).1.err
        = some { code := .unavailable, msg := "storage node overloaded" }) ∧
    (∀ (maxReq live : Int),
      limiterStep maxReq live ReqEvent.beginDownload = live + 1 ∧
      limiterStep maxReq live ReqEvent.beginDelete = live + 1) := by
  refine ⟨?_, ?_, fun maxReq live => ⟨rfl, rfl⟩⟩
  · intro maxReq evs hm hall
    exact limiterRun_le evs 0 hm (by omega) hall
  · intro cfg env first rest es hpos hover
    simp only [Upload]
    rw [if_pos ⟨hpos, hover⟩]
    rfl

/-- Witness for C4 (amended): three upload attempts under cap 2 keep the
counter at 2, and an upload entering at counter 2 under cap 1 is rejected
as unavailable. -/
theorem concurrency_cap_witness :
    limiterRun 2 0 [ReqEvent.beginUpload, ReqEvent.beginUpload, ReqEvent.beginUpload] ≤ 2 ∧
    (Upload { maxConcurrentRequests := 1 } envW (.msg firstMsgW) [] { esW with live := 1 }).1.err
      = some { code := .unavailable, msg := "storage node overloaded" } :=
  ⟨concurrency_cap.1 2 [ReqEvent.beginUpload, ReqEvent.beginUpload, ReqEvent.beginUpload]
      (by decide) (by decide),
   concurrency_cap.2.1 { maxConcurrentRequests := 1 } envW (.msg firstMsgW) []
      { esW with live := 1 } (by decide) (by decide)⟩

/-- Counterexample to C5 as stated: an Upload that passed its prologue and
then hit transport EOF mid-stream returns the invalid-argument error
"unexpected EOF" — an error status — and a canceled Upload returns a
wrapped error too, so peer-gone is not error-free on Upload. -/
theorem peer_gone_counterexample :
    (Upload cfgW envW (.msg firstMsgW) [] esW).1.err
      = some { code := .invalidArgument, msg := "unexpected EOF" } ∧
    (Upload cfgW envW (.msg firstMsgW) [] esW).1.err ≠ none ∧
    (Upload cfgW envW (.msg firstMsgW) [.canceled] esW).1.err ≠ none := by
  refine ⟨by decide, by decide, by decide⟩

/-- C5 (amended): on Download the receive loop treats mid-stream EOF and
cancellation as clean termination (no error, and the combined handler error
of two clean sides is nil), while on Upload mid-stream EOF fails with
invalid-argument "unexpected EOF" (failure metrics bucket) and cancellation
returns a wrapped canceled error that is metered in the cancel bucket. -/
theorem peer_gone_handling :
    (∀ (limit : OrderLimit) (largest : Order) (produced : List Int),
      downloadRecvLoop limit largest produced []
        = { err := none, largestOrder := largest, produced := produced }) ∧
    (∀ (limit : OrderLimit) (largest : Order) (produced : List Int)
        (rest : List (RecvEvent PieceDownloadRequest)),
      downloadRecvLoop limit largest produced (.canceled :: rest)
        = { err := none, largestOrder := largest, produced := produced }) ∧
    combineErrs none none = none ∧
    (∀ (limit : OrderLimit) (env : UploadEnv) (st : UploadLoopState),
      uploadLoop limit env st []
        = { err := some { code := .invalidArgument, msg := "unexpected EOF" },
            st := st, committed := false, orderSaved := false } ∧
      bucketOf (uploadLoop limit env st []).err = .failure) ∧
    (∀ (limit : OrderLimit) (env : UploadEnv) (st : UploadLoopState)
        (rest : List (RecvEvent PieceUploadRequest)),
      uploadLoop limit env st (.canceled :: rest)
        = { err := some { code := .internal, msg := "context canceled", canceled := true },
            st := st, committed := false, orderSaved := false } ∧
      bucketOf (uploadLoop limit env st (.canceled :: rest)).err = .cancel) :=
  ⟨fun _ _ _ => rfl, fun _ _ _ _ => rfl, rfl,
   fun _ _ _ => ⟨rfl, rfl⟩, fun _ _ _ _ => ⟨rfl, rfl⟩⟩

/-- C6: an Upload whose order limit verifies but whose byte limit exceeds
the reported free disk space fails with aborted "not enough available disk
space", before any piece writer is opened and with no endpoint state
touched. -/
theorem upload_insufficient_space (cfg : Config) (env : UploadEnv) (m : PieceUploadRequest)
    (limit : OrderLimit) (rest : List (RecvEvent PieceUploadRequest)) (es : EndpointState)
    (avail free : Int)
    (hcap : ¬ (cfg.maxConcurrentRequests > 0 ∧ es.live + 1 > cfg.maxConcurrentRequests))
    (hlim : m.limit = some limit)
    (hact : limit.action = .put ∨ limit.action = .putRepair)
    (hver : env.limitVerify = none)
    (havail : env.availableSpace = some avail)
    (hfree : env.diskFree = some free)
    (hlow : free < limit.limit) :
    (Upload cfg env (.msg m) rest es).1.err
      = some { code := .aborted, msg := "not enough available disk space" } ∧
    (Upload cfg env (.msg m) rest es).1.writerOpened = false ∧
    (Upload cfg env (.msg m) rest es).2 = es := by
  have hact' : ¬ (limit.action ≠ PieceAction.put ∧ limit.action ≠ PieceAction.putRepair) := by
    rcases hact with h | h <;> simp [h]
  simp only [Upload, hlim, hver, havail, hfree]
  rw [if_neg hcap, if_neg hact', if_pos hlow]
  exact ⟨rfl, rfl, rfl⟩

/-- Witness for C6: free space 50 cannot host a 100-byte limit. -/
theorem upload_insufficient_space_witness :
    (Upload cfgW { envW with diskFree := some 50 } (.msg firstMsgW) [] esW).1.err
      = some { code := .aborted, msg := "not enough available disk space" } ∧
    (Upload cfgW { envW with diskFree := some 50 } (.msg firstMsgW) [] esW).1.writerOpened
      = false ∧
    (Upload cfgW { envW with diskFree := some 50 } (.msg firstMsgW) [] esW).2 = esW :=
  upload_insufficient_space cfgW { envW with diskFree := some 50 } firstMsgW limitW [] esW
    1000 50 (by decide) (by decide) (Or.inl (by decide)) (by decide) (by decide) (by decide)
    (by decide)

/-- C7: a successful Upload commits the concatenation of its chunk
payloads, and a subsequent Download of the same (coordinator-id, piece-id)
requesting the full piece — through a grant sequence under the throttle
contract that lets the send loop complete — returns bytes equal to that
concatenation. -/
theorem upload_download_roundtrip
    (cfg : Config) (uenv : UploadEnv) (m : PieceUploadRequest) (limit : OrderLimit)
    (rest : List (RecvEvent PieceUploadRequest)) (es : EndpointState) (avail free : Int)
    (denv : DownloadEnv) (dm : PieceDownloadRequest) (dlimit : OrderLimit)
    (dchunk : ChunkRequest) (orderEvents : List (RecvEvent PieceDownloadRequest))
    (grants : List Int)
    (hcap : ¬ (cfg.maxConcurrentRequests > 0 ∧ es.live + 1 > cfg.maxConcurrentRequests))
    (hlim : m.limit = some limit)
    (hact : limit.action = .put ∨ limit.action = .putRepair)
    (hver : uenv.limitVerify = none)
    (havail : uenv.availableSpace = some avail)
    (hfree : uenv.diskFree = some free)
    (hfits : ¬ free < limit.limit)
    (hopen : uenv.writerOpenOk = true)
    (hok : (uploadLoop limit uenv (initUploadState avail) rest).err = none)
    (hdlim : dm.limit = some dlimit)
    (hdchunk : dm.chunk = some dchunk)
    (hdact : dlimit.action = .get)
    (hsat : dlimit.satelliteId = limit.satelliteId)
    (hpid : dlimit.pieceId = limit.pieceId)
    (hdver : denv.limitVerify = none)
    (hread : denv.readOk = true)
    (hoff : dchunk.offset = 0)
    (hreq : dchunk.chunkSize
      = (((uploadLoop limit uenv (initUploadState avail) rest).st.chunkDataAll.flatten.length :
          Nat) : Int))
    (hdsize : ¬ dlimit.limit < dchunk.chunkSize)
    (hgrants : grantsValid dchunk.chunkSize grants = true)
    (hcomplete : (downloadSendLoop
        (uploadLoop limit uenv (initUploadState avail) rest).st.chunkDataAll.flatten
        dchunk.offset dchunk.chunkSize grants).2 = true) :
    (Download denv (.msg dm) orderEvents grants
        (Upload cfg uenv (.msg m) rest es).2).1.sent.flatten
      = (uploadLoop limit uenv (initUploadState avail) rest).st.chunkDataAll.flatten := by
  have hcommit : (uploadLoop limit uenv (initUploadState avail) rest).committed = true :=
    uploadLoop_err_none rest _ hok
  have hupload := Upload_run cfg uenv m limit rest es avail free hcap hlim hact hver havail
    hfree hfits hopen
  have hstore : (Upload cfg uenv (.msg m) rest es).2.store
      = storePut es.store (limit.satelliteId, limit.pieceId)
          (uploadLoop limit uenv (initUploadState avail) rest).st.chunkDataAll.flatten := by
    rw [hupload]
    simp [hcommit]
  have hget : storeGet ((Upload cfg uenv (.msg m) rest es).2.store)
      (dlimit.satelliteId, dlimit.pieceId)
      = some (uploadLoop limit uenv (initUploadState avail) rest).st.chunkDataAll.flatten := by
    rw [hsat, hpid, hstore]
    exact storeGet_storePut_self _ _ _
  have hrep : ¬ (dlimit.action = .getRepair ∧ ¬ denv.repairSendOk) := by
    simp [hdact]
  have hbound : ¬ (((uploadLoop limit uenv
        (initUploadState avail) rest).st.chunkDataAll.flatten.length : Int)
      < dchunk.offset + dchunk.chunkSize) := by
    rw [hoff, hreq]
    simp
  rw [Download_run denv dm dlimit dchunk orderEvents grants _ _ hdlim hdchunk
    (Or.inl hdact) hdsize hdver hget hrep hbound]
  simp only [hread, Bool.not_true]
  rw [if_neg (by simp)]
  have := downloadSendLoop_complete
    (uploadLoop limit uenv (initUploadState avail) rest).st.chunkDataAll.flatten
    grants dchunk.offset dchunk.chunkSize (by rw [hoff]) (by rw [hreq]; positivity)
    (by rw [hoff, hreq]; simp) hgrants hcomplete
  rw [this, hoff, hreq]
  rw [Int.toNat_natCast]
  simp

/-- Witness for C7: uploading [1, 2] then [3] and downloading the full
piece with a single 3-byte grant yields [1, 2, 3]. -/
theorem upload_download_roundtrip_witness :
    (Download {} (.msg dfirstMsgW) [] [3] (Upload cfgW envW (.msg firstMsgW) goodEventsW
        esW).2).1.sent.flatten
      = (uploadLoop limitW envW (initUploadState 1000) goodEventsW).st.chunkDataAll.flatten :=
  upload_download_roundtrip cfgW envW firstMsgW limitW goodEventsW esW 1000 1000 {}
    dfirstMsgW dlimitW { offset := 0, chunkSize := 3 } [] [3]
    (by decide) (by decide) (Or.inl (by decide)) (by decide) (by decide) (by decide)
    (by decide) (by decide) (by decide) (by decide) (by decide) (by decide) (by decide)
    (by decide) (by decide) (by decide) (by decide) (by decide) (by decide) (by decide)
    (by decide)

/-- A retain environment with the service disabled and no peer identity. -/
def retainOffEnvW : RetainEnv :=
  { status := .disabled, peer := none, trusted := fun _ => false,
    filterOk := false, queueAccepts := false }

/-- A retain environment with the service enabled and no peer identity. -/
def retainAnonEnvW : RetainEnv :=
  { status := .enabled, peer := none, trusted := fun _ => false,
    filterOk := true, queueAccepts := true }

/-- A retain environment with the service enabled and a trusted peer 7. -/
def retainOkEnvW : RetainEnv :=
  { status := .enabled, peer := some 7, trusted := fun _ => true,
    filterOk := true, queueAccepts := true }

/-- The configuration with a retain-time-buffer of 5. -/
def cfgRetainW : Config := { retainTimeBuffer := 5 }

/-- Counterexample to C8 as stated: with retain disabled by configuration,
a Retain call from a peer with no identity at all succeeds as a no-op
instead of failing — the disabled-status check runs before authentication. -/
theorem retain_auth_counterexample :
    retainOffEnvW.peer = none ∧ (Retain cfgW retainOffEnvW 100).err = none := by
  refine ⟨rfl, by decide⟩

/-- C8 (amended): whenever the retain service is not disabled, a Retain
call from a peer whose identity is missing fails unauthenticated and one
from an untrusted identity fails permission-denied, in both cases before
any further processing (nothing is handed to the retain queue); when retain
is disabled the call succeeds as a no-op without authentication. -/
theorem retain_auth (cfg : Config) (env : RetainEnv) (cd : Int) :
    (env.status ≠ RetainStatus.disabled → env.peer = none →
      Retain cfg env cd
        = { err := some { code := .unauthenticated, msg := "missing peer identity" },
            passedToQueue := none, stored := none }) ∧
    (∀ id, env.status ≠ RetainStatus.disabled → env.peer = some id →
      env.trusted id = false →
      Retain cfg env cd
        = { err := some { code := .permissionDenied, msg := "retain called with untrusted ID" },
            passedToQueue := none, stored := none }) ∧
    (env.status = RetainStatus.disabled →
      Retain cfg env cd = { err := none, passedToQueue := none, stored := none }) := by
  refine ⟨?_, ?_, ?_⟩
  · intro hst hp
    simp [Retain, hst, hp]
  · intro id hst hp ht
    simp [Retain, hst, hp, ht]
  · intro hst
    simp [Retain, hst]

/-- Witness for C8 (amended): with retain enabled, a missing identity is
rejected unauthenticated. -/
theorem retain_auth_witness :
    Retain cfgW retainAnonEnvW 100
      = { err := some { code := .unauthenticated, msg := "missing peer identity" },
          passedToQueue := none, stored := none } :=
  (retain_auth cfgW retainAnonEnvW 100).1 (by decide) rfl

/-- Counterexample to C9 as stated: the endpoint hands the retain service a
request whose created-before equals the supplied creation date unchanged
(here 100 with a configured buffer of 5), not the supplied value minus the
buffer; the subtraction happens inside the retain service's queue function. -/
theorem retain_buffer_counterexample :
    (Retain cfgRetainW retainOkEnvW 100).passedToQueue
      = some { satelliteId := 7, createdBefore := 100 } ∧
    (Retain cfgRetainW retainOkEnvW 100).passedToQueue
      ≠ some { satelliteId := 7, createdBefore := 100 - cfgRetainW.retainTimeBuffer } := by
  refine ⟨by decide, by decide⟩

/-- C9 (amended): for every accepted Retain request the endpoint enqueues
the supplied created-before unchanged and the retain service's queue
function subtracts the configured retain-time-buffer, so the stored
request's created-before equals the supplied timestamp minus the buffer. -/
theorem retain_buffer_applied (cfg : Config) (env : RetainEnv) (cd : Int) (id : Nat)
    (hst : env.status ≠ RetainStatus.disabled) (hp : env.peer = some id)
    (ht : env.trusted id = true) (hf : env.filterOk = true) (hq : env.queueAccepts = true) :
    (Retain cfg env cd).passedToQueue = some { satelliteId := id, createdBefore := cd } ∧
    (Retain cfg env cd).stored
      = some { satelliteId := id, createdBefore := cd - cfg.retainTimeBuffer } := by
  simp [Retain, retainServiceQueue, hst, hp, ht, hf, hq]

/-- Witness for C9 (amended): supplied 100 with buffer 5 is stored as 95. -/
theorem retain_buffer_applied_witness :
    (Retain cfgRetainW retainOkEnvW 100).passedToQueue
      = some { satelliteId := 7, createdBefore := 100 } ∧
    (Retain cfgRetainW retainOkEnvW 100).stored
      = some { satelliteId := 7, createdBefore := 95 } :=
  retain_buffer_applied cfgRetainW retainOkEnvW 100 7 (by decide) rfl rfl rfl rfl

end Piecestore
